import Mathlib

/-!
# Verification of reddec/gsql: lazy value cache and typed row iterator

Shallow embedding of the Go package `gsql` (files `sql.go` and `pkg/sql.go`).
Go errors are modelled by `Option GErr` (with `none` standing for a `nil`
error), Go slices by `Option (List α)` (with `none` standing for a `nil`
slice, which Go distinguishes from a non-nil empty slice), and nil pointers /
runtime panics by `Option`-valued operations returning `none`.
-/

/-- Concrete error values standing for the Go `error` interface: scan
failures, query-initiation failures, iteration faults, and the
`database/sql` misuse error "Scan called without calling Next". -/
inductive GErr where
  | scan (code : Nat)
  | query (code : Nat)
  | iter (code : Nat)
  | scanWithoutNext
  deriving DecidableEq, Repr

/-- Embeds the struct `Cache[T]` from `sql.go`: stored `data`, the validity
flag `valid`, and the `factory` closure. The Go factory has signature
`func(ctx) (T, error)`; contexts are modelled by an abstract type `C` and the
factory by a pure function `C → T × Option GErr`. The `sync.RWMutex` field
has no sequential content; the interleaved semantics of `Get` under the lock
is modelled separately below (`CacheSys`). -/
structure Cache (C T : Type) where
  data : T
  valid : Bool
  factory : C → T × Option GErr

/-- Embeds `NewCache`: the Go zero value of `T` (here an explicit `d0`) with
`valid = false` and the given factory. -/
def NewCache (factory : C → T × Option GErr) (d0 : T) : Cache C T :=
  { data := d0, valid := false, factory := factory }

/-- Embeds `Cache.Get` from `sql.go`, instrumented with an invocation
counter (the last component counts how many times the factory ran during the
call, as the spec's "factory instrumented with a call counter"). The Go code
snapshots `valid`/`data` under a read lock, returns on the fast path when
valid, otherwise takes the exclusive lock, re-checks `valid`
(double-checked locking), and only then invokes the factory; on factory
error it returns `(ct.data, err)` leaving the state unchanged, on success it
stores the value and sets `valid`. In this sequential embedding the snapshot
equals the current state, so the double check re-examines the same fields. -/
def Cache.get (ct : Cache C T) (ctx : C) : (T × Option GErr) × Cache C T × Nat :=
  let valid := ct.valid
  let data := ct.data
  if valid then
    ((data, none), ct, 0)
  else if ct.valid then
    ((ct.data, none), ct, 0)
  else
    match ct.factory ctx with
    | (_, some e) => ((ct.data, some e), ct, 1)
    | (value, none) => ((value, none), { ct with data := value, valid := true }, 1)

/-- Embeds `Cache.Refresh` from `sql.go`, instrumented with the same
invocation counter: unconditionally invokes the factory under the exclusive
lock; on error returns the error leaving `data`/`valid` untouched, on
success stores the value and sets `valid := true`. -/
def Cache.refresh (ct : Cache C T) (ctx : C) : Option GErr × Cache C T × Nat :=
  match ct.factory ctx with
  | (_, some e) => (some e, ct, 1)
  | (value, none) => (none, { ct with data := value, valid := true }, 1)

/-- Embeds `Cache.Invalidate` from `sql.go`: clears the validity flag under
the exclusive lock. -/
def Cache.invalidate (ct : Cache C T) : Cache C T :=
  { ct with valid := false }

/-- C2: on a cache whose validity flag is false, a `Get` whose factory
invocation fails leaves the whole cache state unchanged (in particular
`valid` is still `false`), returns the error to the caller, and the value
slot travelling with that error is never presented as a valid (error-free)
result: the returned error component is non-nil. -/
theorem cache_get_factory_failure (ct : Cache C T) (ctx : C) (w : T) (e : GErr)
    (hv : ct.valid = false) (hf : ct.factory ctx = (w, some e)) :
    ct.get ctx = ((ct.data, some e), ct, 1) ∧ (ct.get ctx).1.2 ≠ none := by
  simp [Cache.get, hv, hf]

/-- Witness for `cache_get_factory_failure` at a concrete cache. -/
theorem cache_get_factory_failure_witness :
    (Cache.get
        { data := 7, valid := false,
          factory := fun _ : Unit => (0, some (GErr.query 1)) } ()
      = ((7, some (GErr.query 1)),
         { data := 7, valid := false,
           factory := fun _ : Unit => (0, some (GErr.query 1)) }, 1))
    ∧ (Cache.get
        { data := 7, valid := false,
          factory := fun _ : Unit => (0, some (GErr.query 1)) } ()).1.2 ≠ none :=
  cache_get_factory_failure _ () 0 (GErr.query 1) rfl rfl

/-- C3: a `Refresh` whose factory invocation fails returns the error and
leaves the stored value and the validity flag exactly as they were; in
particular on a filled cache (`valid = true`) a subsequent `Get` still
returns the previously stored value with no error. -/
theorem cache_refresh_failure_preserves (ct : Cache C T) (ctx ctx2 : C) (w : T) (e : GErr)
    (hf : ct.factory ctx = (w, some e)) :
    ct.refresh ctx = (some e, ct, 1)
    ∧ (ct.valid = true →
        ((ct.refresh ctx).2.1.get ctx2).1 = (ct.data, none)) := by
  refine ⟨by simp [Cache.refresh, hf], fun hv => ?_⟩
  simp [Cache.refresh, hf, Cache.get, hv]

/-- Witness for `cache_refresh_failure_preserves`: a cache filled with 42
keeps 42 across a failing refresh and still serves it from `Get`. -/
theorem cache_refresh_failure_preserves_witness :
    (Cache.refresh
        { data := 42, valid := true,
          factory := fun _ : Unit => (0, some (GErr.query 3)) } ()
      = (some (GErr.query 3),
         { data := 42, valid := true,
           factory := fun _ : Unit => (0, some (GErr.query 3)) }, 1))
    ∧ ((true : Bool) = true →
        ((Cache.refresh
          { data := 42, valid := true,
            factory := fun _ : Unit => (0, some (GErr.query 3)) } ()).2.1.get ()).1
          = (42, none)) :=
  cache_refresh_failure_preserves _ () () 0 (GErr.query 3) rfl

/-- C4: on a filled cache (`valid = true`) `Get` returns the stored value
without invoking the factory (invocation count 0) and without changing the
state — hence arbitrarily many repeated `Get` calls keep doing the same, no
matter what the factory (the external source) would now produce; and after
`Invalidate` the next `Get` invokes the factory again (count 1) and returns
the freshly produced value. -/
theorem cache_get_filled_then_invalidate (ct : Cache C T) (ctx : C) (v : T)
    (hv : ct.valid = true) (hf : ct.factory ctx = (v, none)) :
    ct.get ctx = ((ct.data, none), ct, 0)
    ∧ ct.invalidate.get ctx
        = ((v, none), { data := v, valid := true, factory := ct.factory }, 1) := by
  constructor
  · simp [Cache.get, hv]
  · simp [Cache.invalidate, Cache.get, hf]

/-- Witness for `cache_get_filled_then_invalidate`: a cache filled with the
stale value 5 whose source now produces 9 keeps serving 5 until
`Invalidate`, after which `Get` produces 9. -/
theorem cache_get_filled_then_invalidate_witness :
    (Cache.get
        { data := 5, valid := true,
          factory := fun _ : Unit => (9, none) } ()
      = ((5, none),
         { data := 5, valid := true, factory := fun _ : Unit => (9, none) }, 0))
    ∧ ((Cache.invalidate
          { data := 5, valid := true,
            factory := fun _ : Unit => (9, none) }).get ()
        = ((9, none),
           { data := 9, valid := true, factory := fun _ : Unit => (9, none) }, 1)) :=
  cache_get_filled_then_invalidate _ () 9 rfl rfl

/-- C5: `Refresh` always invokes the factory exactly once, in any state
(the validity flag is never consulted), and on factory success it replaces
the stored value and sets the validity flag to true. -/
theorem cache_refresh_always_invokes (ct : Cache C T) (ctx : C) :
    (ct.refresh ctx).2.2 = 1
    ∧ (∀ v : T, ct.factory ctx = (v, none) →
        ct.refresh ctx = (none, { data := v, valid := true, factory := ct.factory }, 1)) := by
  constructor
  · cases h : ct.factory ctx with
    | mk value err => cases err <;> simp [Cache.refresh, h]
  · intro v hf
    simp [Cache.refresh, hf]

/-- C6: `Invalidate` clears only the validity flag; the stored value and the
factory are left unchanged. -/
theorem cache_invalidate_only_clears_valid (ct : Cache C T) :
    ct.invalidate = { data := ct.data, valid := false, factory := ct.factory } :=
  rfl

/-- Models the external `sqlx.Rows` cursor consumed by the iterator in
`sql.go`: `pending` are the rows not yet visited, each scanning either to a
value or to a scan error; `current` is the row the cursor stands on after
the last `Next`; `finalErr` is the iteration fault the cursor will report
once rows are exhausted (`none` for a clean end); `errNow` is the error the
cursor currently reports from `Err()`; `closeCount` counts `Close` calls. -/
structure Rows (T : Type) where
  pending : List (Except GErr T)
  current : Option (Except GErr T)
  finalErr : Option GErr
  errNow : Option GErr
  closeCount : Nat

/-- The cursor's `Next`: advances onto the next row and reports whether one
is available; at exhaustion it records the iteration fault (if any) so that
`Err` reports it, keeping an already-recorded error. -/
def Rows.next (r : Rows T) : Bool × Rows T :=
  match r.pending with
  | [] =>
      (false, { r with current := none,
                       errNow := match r.errNow with
                                 | some e => some e
                                 | none => r.finalErr })
  | x :: rest => (true, { r with pending := rest, current := some x })

/-- The cursor's `Err`: the error accumulated so far. -/
def Rows.rowsErr (r : Rows T) : Option GErr := r.errNow

/-- The cursor's `StructScan` into a fresh value of `T`: yields the current
row's scan outcome, or the `database/sql` misuse error when no `Next`
preceded it. -/
def Rows.structScan (r : Rows T) : Except GErr T :=
  match r.current with
  | none => Except.error GErr.scanWithoutNext
  | some (Except.ok v) => Except.ok v
  | some (Except.error e) => Except.error e

/-- The cursor's `Close`: releases the cursor, counted in `closeCount`. -/
def Rows.close (r : Rows T) : Option GErr × Rows T :=
  (none, { r with closeCount := r.closeCount + 1 })

/-- Embeds the struct `Iterator[T]` from `sql.go`: the recorded error `err`
and the cursor pointer `rows`, where `none` models a Go `nil` pointer. -/
structure Iterator (T : Type) where
  err : Option GErr
  rows : Option (Rows T)

/-- Embeds `Iterate` from `sql.go`. The external
`db.QueryxContext(ctx, query, args...)` round-trip is modelled by its
outcome `qres`; the Go code stores both results verbatim, so a failed
initiation leaves a `nil` cursor pointer inside the iterator. -/
def Iterate (qres : Except GErr (Rows T)) : Iterator T :=
  match qres with
  | Except.ok r => { err := none, rows := some r }
  | Except.error e => { err := some e, rows := none }

/-- Embeds `Iterator.Next` from `sql.go`: returns `false` at once when an
error is recorded, otherwise delegates to the cursor. Touching a `nil`
cursor is the Go nil-pointer panic, modelled by `none`. -/
def Iterator.next (it : Iterator T) : Option (Bool × Iterator T) :=
  match it.err with
  | some _ => some (false, it)
  | none =>
      match it.rows with
      | none => none
      | some r =>
          let p := r.next
          some (p.1, { it with rows := some p.2 })

/-- Embeds `Iterator.Err` from `sql.go`: the recorded error if any,
otherwise the cursor's accumulated error (panicking, `none`, on a `nil`
cursor). -/
def Iterator.ierr (it : Iterator T) : Option (Option GErr) :=
  match it.err with
  | some e => some (some e)
  | none =>
      match it.rows with
      | none => none
      | some r => some r.rowsErr

/-- Embeds `Iterator.Close` from `sql.go`: dereferences the cursor pointer
unconditionally (`none` models the nil-pointer panic on an absent cursor). -/
def Iterator.close (it : Iterator T) : Option (Option GErr × Iterator T) :=
  match it.rows with
  | none => none
  | some r =>
      let p := r.close
      some (p.1, { it with rows := some p.2 })

/-- Embeds `Iterator.Get` from `sql.go`: first consults the cursor's `Err`,
then scans the current row (`none` models the nil-pointer panic). On error
the Go code returns the zero value together with the error; only the error
is observable there, so the outcome is an `Except`. -/
def Iterator.get (it : Iterator T) : Option (Except GErr T) :=
  match it.rows with
  | none => none
  | some r =>
      match r.rowsErr with
      | some e => some (Except.error e)
      | none => some r.structScan

/-- The `for it.Next() { r, err := it.Get(); ... }` loop of
`Iterator.Collect` (both files), run on a cursor for an iterator whose
recorded error is `nil`: repeatedly advances, scans, appends to the
accumulator `acc` (a Go slice: `none` is the nil slice `var result []T`),
and stops with `(nil, err)` on the first scan error, or with
`(acc, it.Err())` at exhaustion. Returns the collected slice, the returned
error, and the cursor as the loop leaves it. -/
def Rows.collectLoop (r : Rows T) (acc : Option (List T)) :
    Option (List T) × Option GErr × Rows T :=
  match h : r.pending with
  | [] =>
      let r' : Rows T := { r with current := none,
                                  errNow := match r.errNow with
                                            | some e => some e
                                            | none => r.finalErr }
      (acc, r'.errNow, r')
  | x :: rest =>
      let r' : Rows T := { r with pending := rest, current := some x }
      match r'.errNow with
      | some e => (none, some e, r')
      | none =>
          match x with
          | Except.error e => (none, some e, r')
          | Except.ok v => r'.collectLoop (some (acc.getD [] ++ [v]))
  termination_by r.pending.length
  decreasing_by simp [r', h]

/-- Embeds `Iterator.Collect` from `sql.go` (root package): `defer
it.Close()`, then the `Next`/`Get` loop starting from the nil slice, then
`return result, it.Err()`. The deferred `Close` runs on every exit path;
with a `nil` cursor pointer either the loop's `Next` or the deferred
`Close` panics (`none`). -/
def Iterator.collect (it : Iterator T) :
    Option (Option (List T) × Option GErr × Iterator T) :=
  match it.err with
  | some e =>
      match it.rows with
      | none => none
      | some r => some (none, some e, { it with rows := some (r.close).2 })
  | none =>
      match it.rows with
      | none => none
      | some r =>
          let res := r.collectLoop none
          some (res.1, res.2.1, { it with rows := some ((res.2.2).close).2 })

/-- Embeds `Iterator.Collect` from `pkg/sql.go` (pkg package): the same
`Next`/`Get` loop and `return result, it.Err()`, but with no `defer
it.Close()` — the cursor is never released by this variant. -/
def Iterator.collectPkg (it : Iterator T) :
    Option (Option (List T) × Option GErr × Iterator T) :=
  match it.err with
  | some e => some (none, some e, it)
  | none =>
      match it.rows with
      | none => none
      | some r =>
          let res := r.collectLoop none
          some (res.1, res.2.1, { it with rows := some res.2.2 })

/-- Embeds `List` from `sql.go`: `results` is initialized to the non-nil
empty slice `make([]T, 0)` and handed to the external
`sqlx.SelectContext`, modelled by its outcome `qres`: on success the slice
holds every fetched row (appending to a non-nil slice keeps it non-nil), on
failure the error is propagated with the slice still the non-nil empty
one. -/
def listQuery (qres : Except GErr (List T)) : Option (List T) × Option GErr :=
  match qres with
  | Except.ok vs => (some vs, none)
  | Except.error e => (some [], some e)

/-- Unfolding of `Rows.collectLoop` on an exhausted cursor. -/
theorem Rows.collectLoop_mk_nil (cur : Option (Except GErr T)) (fe en : Option GErr)
    (cc : Nat) (acc : Option (List T)) :
    Rows.collectLoop ⟨[], cur, fe, en, cc⟩ acc
      = (acc, (match en with | some e => some e | none => fe),
         ⟨[], none, fe, (match en with | some e => some e | none => fe), cc⟩) := by
  rw [Rows.collectLoop]

/-- Unfolding of `Rows.collectLoop` on a cursor with a next row. -/
theorem Rows.collectLoop_mk_cons (x : Except GErr T) (rest : List (Except GErr T))
    (cur : Option (Except GErr T)) (fe en : Option GErr) (cc : Nat)
    (acc : Option (List T)) :
    Rows.collectLoop ⟨x :: rest, cur, fe, en, cc⟩ acc
      = match en with
        | some e => (none, some e, ⟨rest, some x, fe, en, cc⟩)
        | none =>
            match x with
            | Except.error e => (none, some e, ⟨rest, some x, fe, none, cc⟩)
            | Except.ok v =>
                Rows.collectLoop ⟨rest, some x, fe, none, cc⟩ (some (acc.getD [] ++ [v])) := by
  rw [Rows.collectLoop]
  cases en <;> cases x <;> rfl

/-- The `Collect` loop never touches the cursor's close counter. -/
theorem Rows.collectLoop_closeCount :
    ∀ (l : List (Except GErr T)) (r : Rows T) (acc : Option (List T)),
      r.pending = l → ((r.collectLoop acc).2.2).closeCount = r.closeCount := by
  intro l
  induction l with
  | nil =>
      intro r acc h
      obtain ⟨p, cur, fe, en, cc⟩ := r
      simp only at h
      subst h
      rw [Rows.collectLoop_mk_nil]
  | cons x rest ih =>
      intro r acc h
      obtain ⟨p, cur, fe, en, cc⟩ := r
      simp only at h
      subst h
      rw [Rows.collectLoop_mk_cons]
      cases en with
      | some e => rfl
      | none =>
          cases x with
          | error e => rfl
          | ok v => exact ih _ _ rfl

/-- The `Collect` loop on a cursor whose rows scan cleanly up to a first
scan error: the loop discards the accumulator, returns the nil slice with
that first error, and leaves the cursor standing on the failed row. -/
theorem Rows.collectLoop_first_scan_error (vs : List T) (e : GErr)
    (rest : List (Except GErr T)) (cur : Option (Except GErr T)) (fe : Option GErr)
    (cc : Nat) (acc : Option (List T)) :
    Rows.collectLoop ⟨vs.map Except.ok ++ Except.error e :: rest, cur, fe, none, cc⟩ acc
      = (none, some e, ⟨rest, some (Except.error e), fe, none, cc⟩) := by
  induction vs generalizing cur acc with
  | nil => rw [List.map_nil, List.nil_append, Rows.collectLoop_mk_cons]
  | cons v vs ih =>
      rw [List.map_cons, List.cons_append, Rows.collectLoop_mk_cons]
      exact ih _ _

/-- C7, counterexample: `Collect` on a successfully exhausted cursor that
matched zero rows returns the **nil** slice (`var result []T` is never
appended to, and Go's `append`-free loop leaves it `nil`) together with no
error — not the non-nil empty slice the claim states for both helpers. -/
theorem collect_zero_rows_counterexample :
    (Iterator.collect
        { err := none,
          rows := some { pending := ([] : List (Except GErr Nat)), current := none,
                         finalErr := none, errNow := none, closeCount := 0 } }).map
        (fun res => (res.1, res.2.1))
      = some ((none : Option (List Nat)), (none : Option GErr)) := by
  simp [Iterator.collect, Rows.collectLoop_mk_nil, Rows.close]

/-- C7, amended: a zero-row query is a successful, empty result for both
helpers and neither reports an error, but only the bulk `List` helper
returns a non-nil empty slice (indeed `List` never returns a nil slice,
error or not); `Collect` on a zero-row cursor returns the nil slice with no
error, so for `Collect` an absent sequence does not indicate an error. -/
theorem list_nonnil_collect_nil_on_zero_rows (T : Type)
    (cur : Option (Except GErr T)) (cc : Nat) :
    listQuery (Except.ok ([] : List T)) = (some [], none)
    ∧ (∀ qres : Except GErr (List T), ((listQuery qres).1).isSome = true)
    ∧ (Iterator.collect
          { err := none,
            rows := some { pending := ([] : List (Except GErr T)), current := cur,
                           finalErr := none, errNow := none, closeCount := cc } }).map
          (fun res => (res.1, res.2.1))
        = some (none, none) := by
  refine ⟨rfl, ?_, ?_⟩
  · intro qres
    cases qres <;> rfl
  · simp [Iterator.collect, Rows.collectLoop_mk_nil, Rows.close]

/-- C8, counterexample: on the spec's own scenario — a cursor that fails
scanning on its third row — the pkg-package `Collect`
(`pkg/sql.go`, which has no `defer it.Close()`) does return the absent
sequence and the scan error, but releases the underlying cursor zero
times, not exactly once. -/
theorem collectPkg_no_close_counterexample :
    (Iterator.collectPkg
        { err := none,
          rows := some { pending := [Except.ok 1, Except.ok 2,
                                     Except.error (GErr.scan 5)],
                         current := none, finalErr := none, errNow := none,
                         closeCount := 0 } }).map
        (fun res => (res.1, res.2.1, (res.2.2.rows).map Rows.closeCount))
      = some ((none : Option (List Nat)), some (GErr.scan 5), some 0) := by
  have h := Rows.collectLoop_first_scan_error ([1, 2] : List Nat) (GErr.scan 5)
    [] none none 0 none
  simp only [List.map_cons, List.map_nil, List.cons_append, List.nil_append] at h
  simp [Iterator.collectPkg, h]

/-- C8, amended: both `Collect` variants stop at the first scan error and
return the nil slice together with that error, discarding every previously
collected value; the root-package `Collect` (`sql.go`) additionally
releases the cursor exactly once on every exit path, while the pkg-package
`Collect` (`pkg/sql.go`) releases it zero times on every exit path. -/
theorem collect_first_scan_error_and_close (T : Type) (vs : List T) (e : GErr)
    (rest : List (Except GErr T)) (cur : Option (Except GErr T))
    (fe : Option GErr) (cc : Nat) :
    (Iterator.collect
        { err := none,
          rows := some { pending := vs.map Except.ok ++ Except.error e :: rest,
                         current := cur, finalErr := fe, errNow := none,
                         closeCount := cc } }
      = some (none, some e,
          { err := none,
            rows := some { pending := rest, current := some (Except.error e),
                           finalErr := fe, errNow := none,
                           closeCount := cc + 1 } }))
    ∧ (Iterator.collectPkg
        { err := none,
          rows := some { pending := vs.map Except.ok ++ Except.error e :: rest,
                         current := cur, finalErr := fe, errNow := none,
                         closeCount := cc } }
      = some (none, some e,
          { err := none,
            rows := some { pending := rest, current := some (Except.error e),
                           finalErr := fe, errNow := none,
                           closeCount := cc } }))
    ∧ (∀ (it : Iterator T) (r : Rows T), it.rows = some r →
        (it.collect).map (fun res => (res.2.2.rows).map Rows.closeCount)
          = some (some (r.closeCount + 1)))
    ∧ (∀ (it : Iterator T) (r : Rows T), it.rows = some r →
        (it.collectPkg).map (fun res => (res.2.2.rows).map Rows.closeCount)
          = some (some r.closeCount)) := by
  refine ⟨?_, ?_, ?_, ?_⟩
  · simp [Iterator.collect, Rows.collectLoop_first_scan_error, Rows.close]
  · simp [Iterator.collectPkg, Rows.collectLoop_first_scan_error]
  · rintro ⟨ierr, irows⟩ r h
    simp only at h
    subst h
    cases ierr with
    | some e0 => simp [Iterator.collect, Rows.close]
    | none =>
        simp [Iterator.collect, Rows.close,
          Rows.collectLoop_closeCount r.pending r none rfl]
  · rintro ⟨ierr, irows⟩ r h
    simp only at h
    subst h
    cases ierr with
    | some e0 => simp [Iterator.collectPkg]
    | none =>
        simp [Iterator.collectPkg,
          Rows.collectLoop_closeCount r.pending r none rfl]

/-- C9: whenever the iterator's recorded error slot is set (a
query-initiation error stored at creation, or any prior fault), `Next`
returns `false` at once leaving the iterator untouched — it never reaches
the cursor, which is why this holds even for an absent cursor — and `Err`
returns that recorded error, taking preference over whatever error the
cursor itself has accumulated. -/
theorem next_ierr_with_recorded_error (it : Iterator T) (e : GErr)
    (he : it.err = some e) :
    it.next = some (false, it) ∧ it.ierr = some (some e) := by
  constructor <;> simp [Iterator.next, Iterator.ierr, he]

/-- Witness for `next_ierr_with_recorded_error`: an iterator from a failed
initiation (recorded error, absent cursor). -/
theorem next_ierr_with_recorded_error_witness :
    Iterator.next (T := Nat) { err := some (GErr.query 2), rows := none }
      = some (false, { err := some (GErr.query 2), rows := none })
    ∧ Iterator.ierr (T := Nat) { err := some (GErr.query 2), rows := none }
      = some (some (GErr.query 2)) :=
  next_ierr_with_recorded_error _ (GErr.query 2) rfl

/-- C10: an iterator created by `Iterate` from a failed query initiation
records the error and holds an absent (`nil`) cursor pointer; `Close`
dereferences that pointer unconditionally, so `Close` — and `Collect`,
which always drives `Close` (or, with the error recorded, `Next`'s nil
dereference cannot even be reached before the deferred `Close` fires) —
returns a value exactly when the cursor exists, and panics (`none`)
otherwise; nothing in the public interface prevents calling them on such an
iterator. -/
theorem iterate_failure_close_unsafe (T : Type) (e : GErr) (it : Iterator T) :
    (Iterate (Except.error e) : Iterator T).rows = none
    ∧ (Iterate (Except.error e) : Iterator T).err = some e
    ∧ ((it.close).isSome ↔ (it.rows).isSome)
    ∧ ((it.collect).isSome ↔ (it.rows).isSome) := by
  obtain ⟨ierr, irows⟩ := it
  refine ⟨rfl, rfl, ?_, ?_⟩
  · cases irows <;> simp [Iterator.close]
  · cases irows <;> cases ierr <;> simp [Iterator.collect]

/-- The observable position of one goroutine inside `Cache.Get`
(`sql.go`): `start` — it has not yet taken its read-locked snapshot of
`valid`/`data`; `slow` — its snapshot was invalid and it is waiting for the
exclusive lock; `done` — it returned with the given `(value, error)`. -/
inductive TState (T : Type) where
  | start
  | slow
  | done (res : T × Option GErr)

/-- `true` exactly for a finished goroutine. -/
def TState.isDone : TState T → Bool
  | TState.done _ => true
  | _ => false

/-- Interleaved execution of N goroutines each running one `Cache.Get`
against a shared cache: the shared `data`/`valid` fields, the factory call
counter `calls` (the spec's instrumentation), and each goroutine's
position. Go's `sync.RWMutex` makes the read-locked snapshot and the whole
exclusive-locked section (re-check, factory call, store) atomic with
respect to every other access of `valid`/`data`, so each goroutine takes at
most two atomic steps. -/
structure CacheSys (T : Type) where
  data : T
  valid : Bool
  calls : Nat
  threads : List (TState T)

/-- One atomic step of goroutine `i` under the locking discipline of
`Cache.Get`, with every factory invocation returning `fac`. From `start`:
the read-locked snapshot — return the stored data if `valid`, else fall to
the slow path. From `slow`: the exclusive-locked section — the
double-check returns the stored data if `valid` landed meanwhile, else the
factory runs (counted), and on error the stale data travels with the error
while on success the value is stored and `valid` set. Out-of-range or
finished goroutines leave the state unchanged. -/
def CacheSys.step (fac : T × Option GErr) (s : CacheSys T) (i : Nat) : CacheSys T :=
  match s.threads.get? i with
  | none => s
  | some TState.start =>
      if s.valid then
        { s with threads := s.threads.set i (TState.done (s.data, none)) }
      else
        { s with threads := s.threads.set i TState.slow }
  | some TState.slow =>
      if s.valid then
        { s with threads := s.threads.set i (TState.done (s.data, none)) }
      else
        match fac with
        | (_, some e) =>
            { s with calls := s.calls + 1,
                     threads := s.threads.set i (TState.done (s.data, some e)) }
        | (v, none) =>
            { data := v, valid := true, calls := s.calls + 1,
              threads := s.threads.set i (TState.done (v, none)) }
  | some (TState.done _) => s

/-- Run a whole schedule: an arbitrary interleaving is an arbitrary
sequence of goroutine indices. -/
def CacheSys.run (fac : T × Option GErr) (s : CacheSys T) (sched : List Nat) :
    CacheSys T :=
  sched.foldl (CacheSys.step fac) s

/-- A fresh (never-filled) cache shared by `n` goroutines about to call
`Get`: zero value `d0`, `valid = false`, factory not yet invoked. -/
def CacheSys.init (d0 : T) (n : Nat) : CacheSys T :=
  { data := d0, valid := false, calls := 0, threads := List.replicate n TState.start }

/-- All goroutines have returned. -/
def CacheSys.allDone (s : CacheSys T) : Bool :=
  s.threads.all TState.isDone

/-- Invariant of the race of `Get` calls on a fresh cache whose factory
always returns `(v, none)`: either nobody has filled yet — cache untouched,
factory never called, nobody done — or the winner of the exclusive lock has
filled: `data = v`, exactly one factory call, and every finished goroutine
returned `(v, none)`. -/
def CacheSysInv (d0 v : T) (s : CacheSys T) : Prop :=
  (s.valid = false ∧ s.data = d0 ∧ s.calls = 0
    ∧ ∀ t ∈ s.threads, t = TState.start ∨ t = TState.slow)
  ∨ (s.valid = true ∧ s.data = v ∧ s.calls = 1
    ∧ ∀ t ∈ s.threads, t = TState.start ∨ t = TState.slow ∨ t = TState.done (v, none))

/-- Every atomic step preserves the race invariant. -/
theorem CacheSysInv.step (d0 v : T) (s : CacheSys T) (i : Nat)
    (h : CacheSysInv d0 v s) : CacheSysInv d0 v (s.step (v, none) i) := by
  unfold CacheSys.step
  split
  · exact h
  · -- snapshot step of a goroutine at `start`
    split
    · -- snapshot saw a valid cache: return the stored data
      next hvalid =>
      rcases h with ⟨hv, _, _, _⟩ | ⟨hv, hd, hc, hts⟩
      · rw [hv] at hvalid
        cases hvalid
      · right
        refine ⟨hv, hd, hc, fun t ht => ?_⟩
        rcases List.mem_or_eq_of_mem_set ht with h' | h'
        · exact hts t h'
        · subst h'
          rw [hd]
          exact Or.inr (Or.inr rfl)
    · -- snapshot saw an invalid cache: fall to the slow path
      next hvalid =>
      rcases h with ⟨hv, hd, hc, hts⟩ | ⟨hv, _, _, _⟩
      · left
        refine ⟨hv, hd, hc, fun t ht => ?_⟩
        rcases List.mem_or_eq_of_mem_set ht with h' | h'
        · exact hts t h'
        · subst h'
          exact Or.inr rfl
      · exact absurd hv hvalid
  · -- exclusive-locked step of a goroutine at `slow`
    split
    · -- double-check saw a valid cache: return without invoking the factory
      next hvalid =>
      rcases h with ⟨hv, _, _, _⟩ | ⟨hv, hd, hc, hts⟩
      · rw [hv] at hvalid
        cases hvalid
      · right
        refine ⟨hv, hd, hc, fun t ht => ?_⟩
        rcases List.mem_or_eq_of_mem_set ht with h' | h'
        · exact hts t h'
        · subst h'
          rw [hd]
          exact Or.inr (Or.inr rfl)
    · -- still invalid: this goroutine wins and invokes the factory
      next hvalid =>
      rcases h with ⟨hv, hd, hc, hts⟩ | ⟨hv, _, _, _⟩
      · right
        refine ⟨rfl, rfl, ?_, fun t ht => ?_⟩
        · show s.calls + 1 = 1
          rw [hc]
        · rcases List.mem_or_eq_of_mem_set ht with h' | h'
          · rcases hts t h' with h'' | h''
            · exact Or.inl h''
            · exact Or.inr (Or.inl h'')
          · subst h'
            exact Or.inr (Or.inr rfl)
      · exact absurd hv hvalid
  · exact h

/-- The race invariant holds after any schedule. -/
theorem CacheSysInv.run (d0 v : T) (sched : List Nat) (s : CacheSys T)
    (h : CacheSysInv d0 v s) : CacheSysInv d0 v (s.run (v, none) sched) := by
  induction sched generalizing s with
  | nil => exact h
  | cons j rest ih => exact ih _ (CacheSysInv.step d0 v s j h)

/-- A step never changes the number of goroutines. -/
theorem CacheSys.step_length (fac : T × Option GErr) (s : CacheSys T) (i : Nat) :
    ((s.step fac i).threads).length = s.threads.length := by
  obtain ⟨fv, fe⟩ := fac
  unfold CacheSys.step
  cases fe <;> split <;> (try rfl) <;> split <;> simp [List.length_set]

/-- A schedule never changes the number of goroutines. -/
theorem CacheSys.run_length (fac : T × Option GErr) (sched : List Nat)
    (s : CacheSys T) : ((s.run fac sched).threads).length = s.threads.length := by
  induction sched generalizing s with
  | nil => rfl
  | cons j rest ih =>
      calc ((s.run fac (j :: rest)).threads).length
          = (((s.step fac j).run fac rest).threads).length := rfl
        _ = ((s.step fac j).threads).length := ih _
        _ = s.threads.length := CacheSys.step_length fac s j

/-- C1: against a fresh, never-filled cache whose factory always produces
`(v, no error)`, any interleaving of any positive number of concurrent
`Get` calls that runs every goroutine to completion invokes the factory
exactly once, and every single caller returns the identical produced value
`v` with no error. -/
theorem cache_get_coalesces (d0 v : T) (n : Nat) (sched : List Nat)
    (hn : 0 < n)
    (hdone : ((CacheSys.init d0 n).run (v, none) sched).allDone = true) :
    ((CacheSys.init d0 n).run (v, none) sched).calls = 1
    ∧ ∀ t ∈ ((CacheSys.init d0 n).run (v, none) sched).threads,
        t = TState.done (v, none) := by
  have hinv : CacheSysInv d0 v ((CacheSys.init d0 n).run (v, none) sched) :=
    CacheSysInv.run d0 v sched _
      (Or.inl ⟨rfl, rfl, rfl, fun t ht => Or.inl (List.eq_of_mem_replicate ht)⟩)
  have hall : ∀ t ∈ ((CacheSys.init d0 n).run (v, none) sched).threads,
      t.isDone = true := by
    intro t ht
    exact List.all_eq_true.mp hdone t ht
  rcases hinv with ⟨_, _, _, hts⟩ | ⟨_, _, hc, hts⟩
  · exfalso
    have hlen : 0 < (((CacheSys.init d0 n).run (v, none) sched).threads).length := by
      rw [CacheSys.run_length]
      simpa [CacheSys.init] using hn
    obtain ⟨t, ht⟩ := List.exists_mem_of_length_pos hlen
    have hd := hall t ht
    rcases hts t ht with h | h <;> subst h <;> simp [TState.isDone] at hd
  · refine ⟨hc, fun t ht => ?_⟩
    have hd := hall t ht
    rcases hts t ht with h | h | h
    · subst h
      simp [TState.isDone] at hd
    · subst h
      simp [TState.isDone] at hd
    · exact h

/-- Witness for `cache_get_coalesces`: two goroutines racing a fresh cache
under the fully interleaved schedule (both snapshot before either fills):
one factory call, both return `(7, no error)`. -/
theorem cache_get_coalesces_witness :
    ((CacheSys.init (0 : Nat) 2).run (7, none) [0, 1, 0, 1]).allDone = true
    ∧ (((CacheSys.init (0 : Nat) 2).run (7, none) [0, 1, 0, 1]).calls = 1
       ∧ ∀ t ∈ ((CacheSys.init (0 : Nat) 2).run (7, none) [0, 1, 0, 1]).threads,
           t = TState.done (7, none)) :=
  ⟨rfl, cache_get_coalesces 0 7 2 [0, 1, 0, 1] (by decide) rfl⟩
